/-
Verification of the Banks ETL pipeline (src/Banks_Project.py).

Shallow embedding of the extraction-and-transform core:
  * `extract` (lines 22-87): locate the first <tbody>, iterate its <tr> rows,
    and build one record per row that has at least 3 <td> cells, with the
    two-tier name fallback and the drop-last-character metric rule.
  * `transform` (lines 89-109): add MC_GBP_Billion / MC_EUR_Billion /
    MC_INR_Billion columns, each `np.round(x * exchange_rate[code], 2)`.
  * the orchestrator (lines 152-184): extract, transform, then write the
    CSV sink and the database sink.

Modelling decisions, each tied to the Python it embeds:
  * Numeric values are rationals.  `np.round(_, 2)` is round-half-to-even
    at 2 decimal places (`round2` below).
  * An HTML document is its list of <tbody> elements (`soup.find_all('tbody')`),
    a table body its list of <tr> rows, a row its list of <td> cells
    (`row.find_all('td')`; `row.find('td') is not None` iff that list is
    nonempty).  A cell carries the anchors `find_all('a')` would return
    (each with its optional `title` attribute), its visible text
    (`get_text`), and its list of child content nodes (`.contents`), each
    of which is either a string node or a non-string tag node.
  * `get_text(strip=True)` is modelled as trimming the visible text.
  * Python `float(s)` is modelled by `parseFloat`: optional surrounding
    whitespace, optional sign, decimal mantissa (digits, optionally with a
    dot and optional further digits, or a dot followed by digits), optional
    e/E exponent.  Inf/nan literals and digit-group underscores are not
    modelled; no claim depends on them.
  * `raw_market_cap[:-1]` is `pyDropLast` (drops the last character;
    identity on the empty string, as in Python).
  * In the metric `try` block only `IndexError` and `ValueError` are
    caught.  When `col[2].contents[0]` is a tag (not a string),
    `raw_market_cap[:-1]` calls `Tag.__getitem__` with a slice, and the
    attribute-dict lookup raises an uncaught `TypeError`; this is the
    `ETLError.typeErr` outcome, which aborts extraction.
  * `transform` reads the rate CSV into a dict
    (`set_index('Currency').to_dict()['Rate']`, last occurrence of a
    currency wins, hence `rateLookup` searches the reversed list); the
    claims quantify over the resulting RateTable, so the model takes the
    table itself as input.  Its two `log_progress` calls are modelled as an
    explicit log-line list paired with the result.
-/
import Mathlib

set_option autoImplicit false

namespace BanksETL

/-- Round-half-to-even to an integer, the rounding mode of `np.round`. -/
def roundHalfEven (q : ℚ) : ℤ :=
  let f : ℤ := Int.floor q
  let r : ℚ := q - f
  if r < 1 / 2 then f
  else if 1 / 2 < r then f + 1
  else if f % 2 = 0 then f else f + 1

/-- `np.round(q, 2)`: round-half-to-even at two decimal places. -/
def round2 (q : ℚ) : ℚ := (roundHalfEven (q * 100) : ℚ) / 100

/-- Value of a list of decimal digit characters, most significant first. -/
def natOfDigits (ds : List Char) : ℕ :=
  ds.foldl (fun a c => 10 * a + (c.toNat - 48)) 0

/-- The whitespace characters Python's `str.strip()` and `float()` remove
(the ASCII ones; no claim involves unicode whitespace). -/
def pyIsSpace (c : Char) : Bool :=
  c = ' ' ∨ c = '\t' ∨ c = '\n' ∨ c = '\r' ∨ c = '\x0b' ∨ c = '\x0c'

/-- `str.strip()` on a character list: drop whitespace at both ends. -/
def pyStripChars (cs : List Char) : List Char :=
  ((cs.dropWhile pyIsSpace).reverse.dropWhile pyIsSpace).reverse

/-- `s.strip()`. -/
def pyStrip (s : String) : String := String.mk (pyStripChars s.data)

/-- Exponent suffix of a Python float literal: nothing, or `e`/`E`, an
optional sign, and at least one digit reaching the end of the string. -/
def parseExpPart (mant : ℚ) (cs : List Char) : Option ℚ :=
  match cs with
  | [] => some mant
  | c :: rest =>
    if c = 'e' ∨ c = 'E' then
      let sr : ℤ × List Char :=
        match rest with
        | '+' :: r => (1, r)
        | '-' :: r => (-1, r)
        | r => (1, r)
      let ds := sr.2.takeWhile Char.isDigit
      let tail := sr.2.dropWhile Char.isDigit
      if ds.isEmpty ∨ ¬ tail.isEmpty then none
      else some (mant * (10 : ℚ) ^ (sr.1 * (natOfDigits ds : ℤ)))
    else none

/-- Mantissa of a Python float literal: `digits`, `digits.`, `digits.digits`
or `.digits`; returns its value and the unconsumed characters. -/
def parseMantissa (cs : List Char) : Option (ℚ × List Char) :=
  let ip := cs.takeWhile Char.isDigit
  let r1 := cs.dropWhile Char.isDigit
  match r1 with
  | '.' :: r2 =>
    let fp := r2.takeWhile Char.isDigit
    let r3 := r2.dropWhile Char.isDigit
    if ip.isEmpty ∧ fp.isEmpty then none
    else some ((natOfDigits ip : ℚ) + (natOfDigits fp : ℚ) / (10 : ℚ) ^ fp.length, r3)
  | _ => if ip.isEmpty then none else some ((natOfDigits ip : ℚ), r1)

/-- Python `float(s)` on finite decimal literals: surrounding whitespace,
optional sign, mantissa, optional exponent.  `none` models `ValueError`. -/
def parseFloat (s : String) : Option ℚ :=
  let cs := pyStripChars s.data
  let sr : ℚ × List Char :=
    match cs with
    | '+' :: r => (1, r)
    | '-' :: r => (-1, r)
    | r => (1, r)
  match parseMantissa sr.2 with
  | none => none
  | some mr =>
    match parseExpPart mr.1 mr.2 with
    | none => none
    | some q => some (sr.1 * q)

/-- Python `s[:-1]`: drop the last character; `""` stays `""`. -/
def pyDropLast (s : String) : String := String.mk s.data.dropLast

/-- Decidable equality for `Except` results, so concrete runs of the
pipeline can be checked by evaluation. -/
def exceptDecEq {ε α : Type} [DecidableEq ε] [DecidableEq α] :
    (x y : Except ε α) → Decidable (x = y)
  | Except.ok a, Except.ok b =>
    match decEq a b with
    | isTrue h => isTrue (congrArg Except.ok h)
    | isFalse h => isFalse (fun hh => h (Except.ok.inj hh))
  | Except.error e, Except.error f =>
    match decEq e f with
    | isTrue h => isTrue (congrArg Except.error h)
    | isFalse h => isFalse (fun hh => h (Except.error.inj hh))
  | Except.ok _, Except.error _ => isFalse (fun hh => Except.noConfusion hh)
  | Except.error _, Except.ok _ => isFalse (fun hh => Except.noConfusion hh)

instance {ε α : Type} [DecidableEq ε] [DecidableEq α] : DecidableEq (Except ε α) :=
  exceptDecEq

/-- An `<a>` element as the name extraction sees it: only its optional
`title` attribute matters (`a['title']` raises `KeyError` when absent). -/
structure Anchor where
  title : Option String
  deriving DecidableEq, Repr

/-- One entry of a cell's `.contents`: a string node (its text), or a
non-string tag node. -/
inductive ContentNode where
  | text (s : String)
  | tag
  deriving DecidableEq, Repr

/-- A `<td>` cell: the anchors `find_all('a')` returns inside it (in
document order), its visible text, and its `.contents` children. -/
structure Cell where
  anchors : List Anchor
  text : String
  contents : List ContentNode
  deriving DecidableEq, Repr

/-- A `<tr>` row: the `<td>` cells `find_all('td')` returns. -/
structure Row where
  cells : List Cell
  deriving DecidableEq, Repr

/-- A `<tbody>` element: the `<tr>` rows `find_all('tr')` returns. -/
structure TBody where
  rows : List Row
  deriving DecidableEq, Repr

/-- The parsed page: the `<tbody>` elements `soup.find_all('tbody')`
returns, in document order. -/
structure Document where
  tbodies : List TBody
  deriving DecidableEq, Repr

/-- Errors that escape the core pipeline: the two structural extraction
failures (lines 44 and 49), the uncaught `TypeError` from slicing a tag
content node (line 70), and the `KeyError` from a missing exchange rate
(lines 104-106). -/
inductive ETLError where
  | noTableBody
  | noRows
  | typeErr
  | missingRate (code : String)
  deriving DecidableEq, Repr

/-- Whether the row avoids the one per-row condition the `except` clauses
of `extract` do not cover: an eligible row whose third cell's first
content node is a tag (slicing it raises the uncaught `TypeError`). -/
def rowNoTagHead (r : Row) : Bool :=
  match r.cells with
  | _ :: _ :: c2 :: _ =>
    match c2.contents with
    | ContentNode.tag :: _ => false
    | _ => true
  | _ => true

/-- A parsed record: the `data_dict` of lines 77-80. -/
structure Record where
  Name : String
  MC_USD_Billion : ℚ
  deriving DecidableEq, Repr

/-- A record after `transform` added the three derived columns. -/
structure TRecord where
  Name : String
  MC_USD_Billion : ℚ
  MC_GBP_Billion : ℚ
  MC_EUR_Billion : ℚ
  MC_INR_Billion : ℚ
  deriving DecidableEq, Repr

/-- Name extraction (lines 60-64): try
`col[1].find_all('a')[1]['title']`; on `IndexError` (no second anchor) or
`KeyError` (no `title` attribute) fall back to
`col[1].get_text(strip=True)`.  (`TypeError` is also caught but
`find_all('a')` yields only tags, so it cannot arise.) -/
def extractName (c : Cell) : String :=
  match c.anchors.get? 1 with
  | some a =>
    match a.title with
    | some t => t
    | none => pyStrip c.text
  | none => pyStrip c.text

/-- Metric extraction (lines 68-74): `col[2].contents[0]`, drop the last
character, parse as float; `IndexError` (no contents) and `ValueError`
(unparsable) default to `0.0`, but a tag first content node raises an
uncaught `TypeError` when sliced. -/
def extractMetric (c : Cell) : Except ETLError ℚ :=
  match c.contents with
  | [] => Except.ok 0
  | ContentNode.text s :: _ =>
    match parseFloat (pyDropLast s) with
    | some q => Except.ok q
    | none => Except.ok 0
  | ContentNode.tag :: _ => Except.error ETLError.typeErr

/-- One iteration of the row loop (lines 52-84): rows without a `<td>`
are skipped by the `row.find('td')` guard, rows with fewer than 3 cells
by the `continue`; otherwise a record is produced (or `TypeError`
propagates).  `Except.ok none` is a skipped row. -/
def rowResult (r : Row) : Except ETLError (Option Record) :=
  match r.cells with
  | _ :: c1 :: c2 :: _ =>
    match extractMetric c2 with
    | Except.ok m => Except.ok (some { Name := extractName c1, MC_USD_Billion := m })
    | Except.error e => Except.error e
  | _ => Except.ok none

/-- The row loop: records accumulate in row encounter order
(`pd.concat` append, line 84); the first uncaught exception aborts. -/
def extractRows : List Row → Except ETLError (List Record)
  | [] => Except.ok []
  | r :: rs =>
    match rowResult r with
    | Except.error e => Except.error e
    | Except.ok o =>
      match extractRows rs with
      | Except.error e => Except.error e
      | Except.ok recs => Except.ok (o.toList ++ recs)

/-- `extract` (lines 22-87) after the page fetch: fail `noTableBody` when
`find_all('tbody')` is empty, select the first table body, fail `noRows`
when it has no `<tr>` rows, then run the row loop. -/
def extract (doc : Document) : Except ETLError (List Record) :=
  match doc.tbodies with
  | [] => Except.error ETLError.noTableBody
  | tb :: _ =>
    match tb.rows with
    | [] => Except.error ETLError.noRows
    | _ => extractRows tb.rows

/-- A row is eligible when it has at least 3 data cells (which implies the
`row.find('td')` guard passes). -/
def rowEligible (r : Row) : Bool := 3 ≤ r.cells.length

/-- The rate mapping `exchange_rate`: currency code to multiplier. -/
abbrev RateTable := List (String × ℚ)

/-- Dict lookup in `exchange_rate` (line 101 builds the dict row by row,
so a later occurrence of a code overwrites an earlier one).  `none` models
the `KeyError` of `exchange_rate[code]`. -/
def rateLookup (rates : RateTable) (code : String) : Option ℚ :=
  match (rates.reverse).find? (fun p => p.1 == code) with
  | some p => some p.2
  | none => none

/-- One derived column (each of lines 104-106):
`[np.round(x * exchange_rate[code], 2) for x in df['MC_USD_Billion']]`.
The lookup happens inside the comprehension body, once per element, so an
empty column never touches the dict and cannot raise `KeyError`. -/
def convertColumn (code : String) (rates : RateTable) : List ℚ → Except ETLError (List ℚ)
  | [] => Except.ok []
  | x :: xs =>
    match rateLookup rates code with
    | none => Except.error (ETLError.missingRate code)
    | some r =>
      match convertColumn code rates xs with
      | Except.ok ys => Except.ok (round2 (x * r) :: ys)
      | Except.error e => Except.error e

/-- Zip the three computed columns back onto the records (the three column
assignments of lines 104-106; the lists all have the records' length). -/
def attachColumns : List Record → List ℚ → List ℚ → List ℚ → List TRecord
  | r :: rs, g :: gs, e :: es, i :: il =>
    { Name := r.Name, MC_USD_Billion := r.MC_USD_Billion,
      MC_GBP_Billion := g, MC_EUR_Billion := e, MC_INR_Billion := i } ::
        attachColumns rs gs es il
  | _, _, _, _ => []

/-- The column computations of `transform` (lines 104-106), in source
order GBP, EUR, INR: the first missing rate hit by a nonempty
comprehension aborts with `KeyError`. -/
def convertAll (recs : List Record) (rates : RateTable) : Except ETLError (List TRecord) :=
  let usd := recs.map Record.MC_USD_Billion
  match convertColumn "GBP" rates usd with
  | Except.error e => Except.error e
  | Except.ok gbp =>
    match convertColumn "EUR" rates usd with
    | Except.error e => Except.error e
    | Except.ok eur =>
      match convertColumn "INR" rates usd with
      | Except.error e => Except.error e
      | Except.ok inr => Except.ok (attachColumns recs gbp eur inr)

/-- `transform` (lines 89-109) with its observable effects: the pair of
`log_progress` lines it appends (line 95 always; line 108 only when the
column computations did not raise) together with its result. -/
def transform (recs : List Record) (rates : RateTable) :
    List String × Except ETLError (List TRecord) :=
  match convertAll recs rates with
  | Except.ok out =>
    (["Starting data transformation.",
      "Data transformation complete. Initiating Loading process."], Except.ok out)
  | Except.error e => (["Starting data transformation."], Except.error e)

/-- What reached the two sinks: the flat CSV file (`load_to_csv`) and the
replaced database table (`load_to_db`); `none` means never written. -/
structure SinkState where
  csvFile : Option (List TRecord)
  dbTable : Option (List TRecord)
  deriving DecidableEq, Repr

/-- The orchestrator (lines 152-184): extract, transform, write the CSV
sink, write the DB sink.  An exception in extract or transform propagates
before either sink write. -/
def runETL (doc : Document) (rates : RateTable) : SinkState × Except ETLError Unit :=
  match extract doc with
  | Except.error e => ({ csvFile := none, dbTable := none }, Except.error e)
  | Except.ok recs =>
    match (transform recs rates).2 with
    | Except.error e => ({ csvFile := none, dbTable := none }, Except.error e)
    | Except.ok out => ({ csvFile := some out, dbTable := some out }, Except.ok ())

/-- The end-to-end example table of the spec: row A is
`["1", "<a><a title='Global Bank'>GB</a></a>", "100.5†"]` (the outer
anchor has no `title`, the inner one carries `Global Bank`; `find_all('a')`
returns them in document order), row B is
`["2", "<span>Local Bank</span>", "bad"]` (no anchors in the second cell). -/
def exDoc : Document :=
  { tbodies := [
    { rows := [
      { cells := [
        { anchors := [], text := "1", contents := [ContentNode.text "1"] },
        { anchors := [{ title := none }, { title := some "Global Bank" }], text := "GB",
          contents := [ContentNode.text "GB"] },
        { anchors := [], text := "100.5†", contents := [ContentNode.text "100.5†"] } ] },
      { cells := [
        { anchors := [], text := "2", contents := [ContentNode.text "2"] },
        { anchors := [], text := "Local Bank", contents := [ContentNode.text "Local Bank"] },
        { anchors := [], text := "bad", contents := [ContentNode.text "bad"] } ] } ] } ] }

/-- The example RateTable `{GBP: 0.8, EUR: 0.9, INR: 80.0}`. -/
def exRates : RateTable := [("GBP", 0.8), ("EUR", 0.9), ("INR", 80)]

/-- The RecordSet the example table parses to. -/
def exRecs : List Record :=
  [{ Name := "Global Bank", MC_USD_Billion := 100.5 },
   { Name := "Local Bank", MC_USD_Billion := 0 }]

/-- The example RecordSet after conversion. -/
def exOut : List TRecord :=
  [{ Name := "Global Bank", MC_USD_Billion := 100.5, MC_GBP_Billion := 80.4,
     MC_EUR_Billion := 90.45, MC_INR_Billion := 8040 },
   { Name := "Local Bank", MC_USD_Billion := 0, MC_GBP_Billion := 0,
     MC_EUR_Billion := 0, MC_INR_Billion := 0 }]

/-- A one-record RecordSet used to exercise the converter on concrete
rate tables. -/
def wRecs : List Record := [{ Name := "A", MC_USD_Billion := 1 }]

/-- A rate table with GBP and INR but no EUR. -/
def wRatesNoEur : RateTable := [("GBP", 0.8), ("INR", 80)]

/-- A row whose third cell has unparsable numeric content (`"bad"`). -/
def wBadRow : Row :=
  { cells := [
    { anchors := [], text := "9", contents := [ContentNode.text "9"] },
    { anchors := [], text := " B ", contents := [ContentNode.text " B "] },
    { anchors := [], text := "bad", contents := [ContentNode.text "bad"] } ] }

/-- A rate table with the same three required rates as `exRates` but in a
different order and with an extra, unused entry. -/
def wRatesPerm : RateTable := [("USD", 2), ("INR", 80), ("EUR", 0.9), ("GBP", 0.8)]

/-- A document whose single eligible row has a tag (non-string) first
content node in its third cell: slicing it raises the uncaught
`TypeError`. -/
def tagDoc : Document :=
  { tbodies := [
    { rows := [
      { cells := [
        { anchors := [], text := "1", contents := [ContentNode.text "1"] },
        { anchors := [], text := "B", contents := [ContentNode.text "B"] },
        { anchors := [], text := "x", contents := [ContentNode.tag] } ] } ] } ] }

/-! ## Helper lemmas -/

theorem rowResult_ok_none_iff (r : Row) :
    rowResult r = Except.ok none ↔ r.cells.length < 3 := by
  rcases r with ⟨_ | ⟨c0, _ | ⟨c1, _ | ⟨c2, rest⟩⟩⟩⟩
  · simp [rowResult]
  · simp [rowResult]
  · simp [rowResult]
  · cases h : extractMetric c2 <;> simp [rowResult, h]

theorem rowResult_ok_some_len {r : Row} {rec : Record} :
    rowResult r = Except.ok (some rec) → 3 ≤ r.cells.length := by
  intro h
  by_contra hlen
  rw [(rowResult_ok_none_iff r).mpr (by omega)] at h
  cases h

theorem extractMetric_error_eq {c : Cell} {e : ETLError} :
    extractMetric c = Except.error e → e = ETLError.typeErr := by
  rcases c with ⟨anc, tx, cs⟩
  cases cs with
  | nil => intro h; cases h
  | cons n more =>
    cases n with
    | text s =>
      intro h
      simp only [extractMetric] at h
      cases hp : parseFloat (pyDropLast s) <;> rw [hp] at h <;> cases h
    | tag =>
      intro h
      simp only [extractMetric] at h
      exact (Except.error.inj h).symm

theorem rowResult_error_eq {r : Row} {e : ETLError} :
    rowResult r = Except.error e → e = ETLError.typeErr := by
  rcases r with ⟨_ | ⟨c0, _ | ⟨c1, _ | ⟨c2, rest⟩⟩⟩⟩ <;> intro h
  · cases h
  · cases h
  · cases h
  · simp only [rowResult] at h
    cases hm : extractMetric c2 with
    | ok m => rw [hm] at h; cases h
    | error e2 =>
      rw [hm] at h
      cases h
      exact extractMetric_error_eq hm

theorem extractRows_error_eq {rows : List Row} {e : ETLError} :
    extractRows rows = Except.error e → e = ETLError.typeErr := by
  induction rows with
  | nil => intro h; cases h
  | cons r rs ih =>
    intro h
    simp only [extractRows] at h
    cases hr : rowResult r with
    | error e2 =>
      rw [hr] at h
      cases h
      exact rowResult_error_eq hr
    | ok o =>
      rw [hr] at h
      cases hrs : extractRows rs with
      | error e2 => rw [hrs] at h; cases h; exact ih hrs
      | ok recs => rw [hrs] at h; cases h

theorem extractRows_ok_forall₂ {rows : List Row} {recs : List Record} :
    extractRows rows = Except.ok recs →
      List.Forall₂ (fun r rec => rowResult r = Except.ok (some rec))
        (rows.filter rowEligible) recs := by
  induction rows generalizing recs with
  | nil =>
    intro h
    cases h
    simp
  | cons r rs ih =>
    intro h
    simp only [extractRows] at h
    cases hr : rowResult r with
    | error e => rw [hr] at h; cases h
    | ok o =>
      rw [hr] at h
      cases hrs : extractRows rs with
      | error e => rw [hrs] at h; cases h
      | ok recs2 =>
        rw [hrs] at h
        cases h
        cases o with
        | none =>
          have hlen : r.cells.length < 3 := (rowResult_ok_none_iff r).mp hr
          have hel : rowEligible r = false := by
            simp only [rowEligible, decide_eq_false_iff_not]
            omega
          simpa [List.filter_cons, hel] using ih hrs
        | some rec =>
          have hlen : 3 ≤ r.cells.length := rowResult_ok_some_len hr
          have hel : rowEligible r = true := by
            simp only [rowEligible, decide_eq_true_eq]
            omega
          rw [show (r :: rs).filter rowEligible = r :: rs.filter rowEligible from by
            simp [List.filter_cons, hel]]
          exact List.Forall₂.cons hr (ih hrs)

theorem convertColumn_ok {code : String} {rates : RateTable} {rate : ℚ}
    (h : rateLookup rates code = some rate) (usd : List ℚ) :
    convertColumn code rates usd = Except.ok (usd.map (fun x => round2 (x * rate))) := by
  induction usd with
  | nil => simp [convertColumn]
  | cons x xs ih => simp [convertColumn, h, ih]

theorem convertColumn_missing {code : String} {rates : RateTable}
    (h : rateLookup rates code = none) {usd : List ℚ} (hne : usd ≠ []) :
    convertColumn code rates usd = Except.error (ETLError.missingRate code) := by
  cases usd with
  | nil => exact absurd rfl hne
  | cons x xs => simp [convertColumn, h]

theorem convertColumn_congr {code : String} {rates1 rates2 : RateTable}
    (h : rateLookup rates1 code = rateLookup rates2 code) (usd : List ℚ) :
    convertColumn code rates1 usd = convertColumn code rates2 usd := by
  induction usd with
  | nil => simp [convertColumn]
  | cons x xs ih => simp only [convertColumn, h, ih]

theorem attachColumns_map (fg fe fi : ℚ → ℚ) (recs : List Record) :
    attachColumns recs ((recs.map Record.MC_USD_Billion).map fg)
        ((recs.map Record.MC_USD_Billion).map fe)
        ((recs.map Record.MC_USD_Billion).map fi) =
      recs.map (fun r =>
        { Name := r.Name, MC_USD_Billion := r.MC_USD_Billion,
          MC_GBP_Billion := fg r.MC_USD_Billion,
          MC_EUR_Billion := fe r.MC_USD_Billion,
          MC_INR_Billion := fi r.MC_USD_Billion }) := by
  induction recs with
  | nil => simp [attachColumns]
  | cons r rs ih =>
    simp only [List.map_cons, attachColumns]
    rw [ih]

theorem convertAll_ok {rates : RateTable} {g e i : ℚ}
    (hg : rateLookup rates "GBP" = some g)
    (he : rateLookup rates "EUR" = some e)
    (hi : rateLookup rates "INR" = some i) (recs : List Record) :
    convertAll recs rates = Except.ok (recs.map (fun r =>
      { Name := r.Name, MC_USD_Billion := r.MC_USD_Billion,
        MC_GBP_Billion := round2 (r.MC_USD_Billion * g),
        MC_EUR_Billion := round2 (r.MC_USD_Billion * e),
        MC_INR_Billion := round2 (r.MC_USD_Billion * i) }) ) := by
  simp only [convertAll, convertColumn_ok hg, convertColumn_ok he, convertColumn_ok hi]
  rw [attachColumns_map]

theorem extractMetric_ok_of_head_not_tag {c : Cell}
    (h : ∀ more, c.contents ≠ ContentNode.tag :: more) :
    ∃ m, extractMetric c = Except.ok m := by
  rcases hc : c.contents with _ | ⟨n, more⟩
  · exact ⟨0, by simp [extractMetric, hc]⟩
  · cases n with
    | text s =>
      cases hp : parseFloat (pyDropLast s) with
      | none => exact ⟨0, by simp [extractMetric, hc, hp]⟩
      | some q => exact ⟨q, by simp [extractMetric, hc, hp]⟩
    | tag => exact absurd hc (h more)

theorem rowResult_ok_of_noTagHead {r : Row} (h : rowNoTagHead r = true) :
    ∃ o, rowResult r = Except.ok o := by
  rcases hc : r.cells with _ | ⟨c0, _ | ⟨c1, _ | ⟨c2, crest⟩⟩⟩
  · exact ⟨none, by simp [rowResult, hc]⟩
  · exact ⟨none, by simp [rowResult, hc]⟩
  · exact ⟨none, by simp [rowResult, hc]⟩
  · have hnt : ∀ more, c2.contents ≠ ContentNode.tag :: more := by
      intro more hcon
      simp [rowNoTagHead, hc, hcon] at h
    obtain ⟨m, hm⟩ := extractMetric_ok_of_head_not_tag hnt
    exact ⟨some { Name := extractName c1, MC_USD_Billion := m }, by simp [rowResult, hc, hm]⟩

theorem extractRows_ok_of_noTagHead {rows : List Row}
    (hgood : ∀ r ∈ rows, rowNoTagHead r = true) :
    ∃ recs, extractRows rows = Except.ok recs := by
  induction rows with
  | nil => exact ⟨[], rfl⟩
  | cons r rs ih =>
    obtain ⟨recs2, hrs⟩ := ih (fun r2 hr2 => hgood r2 (List.mem_cons_of_mem _ hr2))
    obtain ⟨o, hro⟩ := rowResult_ok_of_noTagHead (hgood r (List.mem_cons_self r rs))
    exact ⟨o.toList ++ recs2, by simp [extractRows, hro, hrs]⟩

/-! ## Claim theorems -/

/-- C1 counterexample: the claim quantifies over every document whose
first table body contains data rows, but on `tagDoc` — first table body
nonempty, exactly one eligible row — `extract` does not return one Record
per eligible row: the eligible row's third cell has a tag first content
node, so extraction aborts with the uncaught `TypeError` and returns no
RecordSet at all. -/
theorem spec_c1_counterexample :
    (∃ tb rest, tagDoc.tbodies = tb :: rest ∧ tb.rows ≠ [] ∧
      (tb.rows.filter rowEligible).length = 1) ∧
    extract tagDoc = Except.error ETLError.typeErr := by
  refine ⟨⟨_, _, rfl, by decide, by decide⟩, by decide⟩

/-- C1 (amended): whenever `extract` returns a RecordSet — which it does
unless an eligible row's third cell has a tag first content node, in
which case it aborts with the uncaught `TypeError` instead — that
RecordSet contains exactly one Record per eligible row (a row with at
least 3 data cells, which in particular has a data cell) of the first
table body, in source row encounter order: each eligible row is matched
one-to-one and in order with the record it produced, so with N eligible
and M ineligible rows exactly N records are returned. -/
theorem spec_c1 (doc : Document) (recs : List Record)
    (h : extract doc = Except.ok recs) :
    ∃ tb rest, doc.tbodies = tb :: rest ∧
      List.Forall₂ (fun r rec => rowResult r = Except.ok (some rec))
        (tb.rows.filter rowEligible) recs ∧
      recs.length = (tb.rows.filter rowEligible).length := by
  rcases doc with ⟨tbs⟩
  cases tbs with
  | nil => cases h
  | cons tb rest =>
    have hrows : extractRows tb.rows = Except.ok recs := by
      simp only [extract] at h
      cases hr : tb.rows with
      | nil => rw [hr] at h; cases h
      | cons a as => rw [hr] at h; exact h
    have hf := extractRows_ok_forall₂ hrows
    exact ⟨tb, rest, rfl, hf, (List.Forall₂.length_eq hf).symm⟩

theorem spec_c1_witness :
    extract exDoc = Except.ok exRecs ∧
      (∃ tb rest, exDoc.tbodies = tb :: rest ∧
        List.Forall₂ (fun r rec => rowResult r = Except.ok (some rec))
          (tb.rows.filter rowEligible) exRecs ∧
        exRecs.length = (tb.rows.filter rowEligible).length) :=
  ⟨by with_unfolding_all rfl, spec_c1 exDoc exRecs (by with_unfolding_all rfl)⟩

/-- C2: when the RateTable has all three required codes, `convertAll` (the
column computations of `transform`) maps every Record to its decorated
version, with each derived column equal to `round2` of the USD metric
times the looked-up rate — the same rounding rule for every record and
currency; in particular `MC_GBP_Billion = round2 (MC_USD_Billion * g)`
for every output record. -/
theorem spec_c2 (recs : List Record) (rates : RateTable) (g e i : ℚ)
    (hg : rateLookup rates "GBP" = some g)
    (he : rateLookup rates "EUR" = some e)
    (hi : rateLookup rates "INR" = some i) :
    convertAll recs rates = Except.ok (recs.map (fun r =>
      { Name := r.Name, MC_USD_Billion := r.MC_USD_Billion,
        MC_GBP_Billion := round2 (r.MC_USD_Billion * g),
        MC_EUR_Billion := round2 (r.MC_USD_Billion * e),
        MC_INR_Billion := round2 (r.MC_USD_Billion * i) })) ∧
    (∀ out, convertAll recs rates = Except.ok out →
      ∀ tr ∈ out, tr.MC_GBP_Billion = round2 (tr.MC_USD_Billion * g)) := by
  refine ⟨convertAll_ok hg he hi recs, ?_⟩
  intro out hout tr htr
  rw [convertAll_ok hg he hi recs] at hout
  cases hout
  rw [List.mem_map] at htr
  rcases htr with ⟨r, _, rfl⟩
  rfl

theorem spec_c2_witness :
    rateLookup exRates "GBP" = some 0.8 ∧
      convertAll wRecs exRates = Except.ok
        [⟨"A", 1, round2 (1 * 0.8), round2 (1 * 0.9), round2 (1 * 80)⟩] :=
  ⟨by with_unfolding_all rfl,
    (spec_c2 wRecs exRates 0.8 0.9 80 (by with_unfolding_all rfl)
      (by with_unfolding_all rfl) (by with_unfolding_all rfl)).1⟩

/-- C8: `extract` fails with `noTableBody` exactly when the document has
no table-body element and with `noRows` exactly when the first table body
has no rows; on any extraction error the whole run aborts with nothing
written to the CSV sink or the database sink. -/
theorem spec_c8 (doc : Document) :
    (extract doc = Except.error ETLError.noTableBody ↔ doc.tbodies = []) ∧
    (extract doc = Except.error ETLError.noRows ↔
      ∃ tb rest, doc.tbodies = tb :: rest ∧ tb.rows = []) ∧
    (∀ rates e, extract doc = Except.error e →
      runETL doc rates = ({ csvFile := none, dbTable := none }, Except.error e)) := by
  refine ⟨?_, ?_, ?_⟩
  · constructor
    · intro h
      rcases doc with ⟨_ | ⟨tb, rest⟩⟩
      · rfl
      · exfalso
        simp only [extract] at h
        cases hr : tb.rows with
        | nil => rw [hr] at h; cases h
        | cons a as =>
          rw [hr] at h
          cases extractRows_error_eq h
    · intro h
      rcases doc with ⟨tbs⟩
      cases tbs with
      | nil => rfl
      | cons tb rest => cases h
  · constructor
    · intro h
      rcases doc with ⟨_ | ⟨tb, rest⟩⟩
      · cases h
      · refine ⟨tb, rest, rfl, ?_⟩
        simp only [extract] at h
        cases hr : tb.rows with
        | nil => rfl
        | cons a as =>
          rw [hr] at h
          cases extractRows_error_eq h
    · rintro ⟨tb, rest, hdoc, hrows⟩
      rcases doc with ⟨tbs⟩
      cases hdoc
      simp only [extract, hrows]
  · intro rates e h
    simp only [runETL, h]

theorem spec_c8_witness :
    runETL { tbodies := [] } exRates =
      ({ csvFile := none, dbTable := none }, Except.error ETLError.noTableBody) :=
  (spec_c8 { tbodies := [] }).2.2 exRates ETLError.noTableBody (by decide)

/-- C3 counterexample: the rate lookups of `transform` happen inside the
three list comprehensions, once per record, so on the EMPTY RecordSet a
rate table missing every required code (here the empty one, which omits
"EUR" in particular) raises nothing: the transform succeeds. -/
theorem spec_c3_counterexample :
    rateLookup ([] : RateTable) "EUR" = none ∧
      convertAll [] ([] : RateTable) = Except.ok [] ∧
      (transform [] ([] : RateTable)).2 = Except.ok [] := by
  decide

/-- C3 (amended): for every NON-EMPTY RecordSet and every RateTable
missing at least one of "GBP", "EUR", "INR", `transform` fails with a
missing-rate error for one of the required codes, and on any document
extracting to that RecordSet the run writes nothing to either sink. -/
theorem spec_c3 (recs : List Record) (rates : RateTable)
    (hne : recs ≠ [])
    (hmiss : rateLookup rates "GBP" = none ∨ rateLookup rates "EUR" = none ∨
      rateLookup rates "INR" = none) :
    (∃ code, (code = "GBP" ∨ code = "EUR" ∨ code = "INR") ∧
      rateLookup rates code = none ∧
      (transform recs rates).2 = Except.error (ETLError.missingRate code)) ∧
    (∀ doc, extract doc = Except.ok recs →
      (runETL doc rates).1 = { csvFile := none, dbTable := none }) := by
  have husd : recs.map Record.MC_USD_Billion ≠ [] := by
    cases recs with
    | nil => exact absurd rfl hne
    | cons a l => simp
  have hconv : ∃ code, (code = "GBP" ∨ code = "EUR" ∨ code = "INR") ∧
      rateLookup rates code = none ∧
      convertAll recs rates = Except.error (ETLError.missingRate code) := by
    cases hg : rateLookup rates "GBP" with
    | none =>
      refine ⟨"GBP", Or.inl rfl, hg, ?_⟩
      simp only [convertAll, convertColumn_missing hg husd]
    | some g =>
      cases he : rateLookup rates "EUR" with
      | none =>
        refine ⟨"EUR", Or.inr (Or.inl rfl), he, ?_⟩
        simp only [convertAll, convertColumn_ok hg, convertColumn_missing he husd]
      | some e =>
        cases hi : rateLookup rates "INR" with
        | none =>
          refine ⟨"INR", Or.inr (Or.inr rfl), hi, ?_⟩
          simp only [convertAll, convertColumn_ok hg, convertColumn_ok he,
            convertColumn_missing hi husd]
        | some i =>
          exfalso
          rcases hmiss with hm | hm | hm
          · rw [hg] at hm; cases hm
          · rw [he] at hm; cases hm
          · rw [hi] at hm; cases hm
  rcases hconv with ⟨code, hcode, hnone, hconv⟩
  constructor
  · exact ⟨code, hcode, hnone, by simp only [transform, hconv]⟩
  · intro doc hdoc
    simp only [runETL, hdoc, transform, hconv]

theorem spec_c3_witness :
    (∃ code, (code = "GBP" ∨ code = "EUR" ∨ code = "INR") ∧
      rateLookup wRatesNoEur code = none ∧
      (transform wRecs wRatesNoEur).2 = Except.error (ETLError.missingRate code)) ∧
    (∀ doc, extract doc = Except.ok wRecs →
      (runETL doc wRatesNoEur).1 = { csvFile := none, dbTable := none }) :=
  spec_c3 wRecs wRatesNoEur (by decide) (Or.inr (Or.inl (by decide)))

/-- C4: name extraction is a two-tier fallback: the `title` of the second
anchor of the cell is used when the anchor and the attribute exist, and on
a missing second anchor (`IndexError`) or a missing `title` attribute
(`KeyError`; the caught `TypeError` cannot arise since `find_all('a')`
yields only tags) the name is the whitespace-trimmed visible text of the
cell; in particular a cell with no anchors yields that trimmed text. -/
theorem spec_c4 (c : Cell) :
    (∀ a t, c.anchors[1]? = some a → a.title = some t → extractName c = t) ∧
    (c.anchors[1]? = none → extractName c = pyStrip c.text) ∧
    (∀ a, c.anchors[1]? = some a → a.title = none → extractName c = pyStrip c.text) ∧
    (c.anchors = [] → extractName c = pyStrip c.text) := by
  refine ⟨?_, ?_, ?_, ?_⟩
  · intro a t h1 h2
    simp [extractName, h1, h2]
  · intro h1
    simp [extractName, h1]
  · intro a h1 h2
    simp [extractName, h1, h2]
  · intro h1
    simp [extractName, h1]

theorem spec_c4_witness :
    extractName { anchors := [], text := " Local Bank ", contents := [] } = "Local Bank" := by
  have h := (spec_c4 { anchors := [], text := " Local Bank ", contents := [] }).2.2.2 rfl
  rw [h]
  decide

/-- C5: an eligible row whose third cell has no first content node, or
whose first content node is a string not float-parseable after dropping
its last character, still yields a record (the row is neither dropped nor
does extraction raise), with `MC_USD_Billion = 0`. -/
theorem spec_c5 (r : Row) (c0 c1 c2 : Cell) (rest : List Cell)
    (hcells : r.cells = c0 :: c1 :: c2 :: rest)
    (hbad : c2.contents = [] ∨ ∃ s more, c2.contents = ContentNode.text s :: more ∧
      parseFloat (pyDropLast s) = none) :
    rowResult r = Except.ok (some { Name := extractName c1, MC_USD_Billion := 0 }) := by
  have hm : extractMetric c2 = Except.ok 0 := by
    rcases hbad with h | ⟨s, more, h, hp⟩
    · simp [extractMetric, h]
    · simp [extractMetric, h, hp]
  rcases r with ⟨cells⟩
  cases hcells
  simp [rowResult, hm]

theorem spec_c5_witness :
    rowResult wBadRow = Except.ok (some { Name := "B", MC_USD_Billion := 0 }) := by
  have h := spec_c5 wBadRow _ _ _ _ (by rfl) (Or.inr ⟨"bad", [], by rfl, by decide⟩)
  rw [h]
  decide

/-- C6 counterexample: `tagDoc` has a table body with a row, and that
row's only anomaly is malformed cell content — its third cell's first
content node is a tag, not a string — yet extraction does not recover
locally: it aborts with the uncaught `TypeError` and returns no
RecordSet. -/
theorem spec_c6_counterexample :
    tagDoc.tbodies ≠ [] ∧
      (∃ tb rest, tagDoc.tbodies = tb :: rest ∧ tb.rows ≠ []) ∧
      extract tagDoc = Except.error ETLError.typeErr := by
  refine ⟨by decide, ⟨_, _, rfl, by decide⟩, by decide⟩

/-- C6 (amended): the three anomalies named by the spec (missing
anchor/title, missing first content node, string metric that fails to
parse) are recovered locally and never abort extraction: whenever every
row's third cell avoids a tag first content node, `extract` on a document
with a first table body that has rows returns a RecordSet.  (A tag first
content node, by contrast, aborts the run — see the counterexample.) -/
theorem spec_c6 (doc : Document) (tb : TBody) (rest : List TBody)
    (hdoc : doc.tbodies = tb :: rest) (hrows : tb.rows ≠ [])
    (hgood : ∀ r ∈ tb.rows, rowNoTagHead r = true) :
    ∃ recs, extract doc = Except.ok recs := by
  obtain ⟨recs, hok⟩ := extractRows_ok_of_noTagHead hgood
  refine ⟨recs, ?_⟩
  rcases doc with ⟨tbs⟩
  cases hdoc
  simp only [extract]
  cases hr : tb.rows with
  | nil => exact absurd hr hrows
  | cons a as =>
    rw [hr] at hok
    exact hok

theorem spec_c6_witness :
    ∃ recs, extract exDoc = Except.ok recs :=
  spec_c6 exDoc _ _ rfl (by decide) (by decide)

/-- C7 counterexample: `transform` is not free of logging: already on
empty inputs its log output is the two fixed progress lines (written to
the process-wide log file), not nothing. -/
theorem spec_c7_counterexample :
    (transform [] []).1 =
      ["Starting data transformation.",
        "Data transformation complete. Initiating Loading process."] ∧
      (transform [] []).1 ≠ [] := by
  decide

/-- C7 (amended): the transform is deterministic and reads no state
beyond its RecordSet and RateTable — in fact only the three required
rates: two rate tables agreeing on "GBP", "EUR" and "INR" produce
identical results (same derived columns and same log lines; two calls on
equal inputs are the `rates2 = rates1` instance).  It is not, however,
log-free: its log output is always one of the two fixed nonempty
progress-message lists. -/
theorem spec_c7 (recs : List Record) (rates1 rates2 : RateTable)
    (hg : rateLookup rates1 "GBP" = rateLookup rates2 "GBP")
    (he : rateLookup rates1 "EUR" = rateLookup rates2 "EUR")
    (hi : rateLookup rates1 "INR" = rateLookup rates2 "INR") :
    transform recs rates1 = transform recs rates2 ∧
      ((transform recs rates1).1 =
          ["Starting data transformation.",
            "Data transformation complete. Initiating Loading process."] ∨
        (transform recs rates1).1 = ["Starting data transformation."]) := by
  have hca : convertAll recs rates1 = convertAll recs rates2 := by
    simp only [convertAll]
    rw [convertColumn_congr hg, convertColumn_congr he, convertColumn_congr hi]
  constructor
  · simp only [transform, hca]
  · cases hc : convertAll recs rates1 with
    | ok out => left; simp [transform, hc]
    | error e => right; simp [transform, hc]

theorem spec_c7_witness :
    transform wRecs exRates = transform wRecs wRatesPerm ∧
      ((transform wRecs exRates).1 =
          ["Starting data transformation.",
            "Data transformation complete. Initiating Loading process."] ∨
        (transform wRecs exRates).1 = ["Starting data transformation."]) :=
  spec_c7 wRecs exRates wRatesPerm rfl rfl rfl

/-- C9: on the spec's end-to-end example — row A
`["1", "<a><a title='Global Bank'>GB</a></a>", "100.5†"]`, row B
`["2", "<span>Local Bank</span>", "bad"]`, rates
`{GBP: 0.8, EUR: 0.9, INR: 80.0}` — extraction yields
`[{Global Bank, 100.5}, {Local Bank, 0}]` and conversion yields
`[{Global Bank, 100.5, 80.4, 90.45, 8040}, {Local Bank, 0, 0, 0, 0}]`,
which is what the full run writes to both sinks. -/
theorem spec_c9 :
    extract exDoc = Except.ok exRecs ∧
      convertAll exRecs exRates = Except.ok exOut ∧
      runETL exDoc exRates =
        ({ csvFile := some exOut, dbTable := some exOut }, Except.ok ()) := by
  refine ⟨?_, ?_, ?_⟩ <;> with_unfolding_all rfl

/-- C10: the drop-last-character rule is applied unconditionally before
numeric parsing: an eligible row whose third cell's first content node is
the string `s` always gets metric `parseFloat (pyDropLast s)` (defaulting
to 0), so the plain numeric cell "100.5", which has no trailing marker,
is recorded as 100 — the value parsed after removing its final digit —
and not as the 100.5 written in the cell. -/
theorem spec_c10 :
    (∀ (anc : List Anchor) (t : String) (s : String) (more : List ContentNode),
      extractMetric { anchors := anc, text := t, contents := ContentNode.text s :: more } =
        Except.ok ((parseFloat (pyDropLast s)).getD 0)) ∧
    (∀ (c0 c1 : Cell) (anc : List Anchor) (t : String) (s : String)
      (more : List ContentNode) (crest : List Cell),
      rowResult ⟨c0 :: c1 :: (⟨anc, t, ContentNode.text s :: more⟩ : Cell) :: crest⟩ =
        Except.ok (some ⟨extractName c1, (parseFloat (pyDropLast s)).getD 0⟩)) ∧
    extractMetric { anchors := [], text := "", contents := [ContentNode.text "100.5"] } =
      Except.ok 100 ∧
    (100 : ℚ) ≠ 100.5 := by
  refine ⟨?_, ?_, ?_, ?_⟩
  · intro anc t s more
    cases hp : parseFloat (pyDropLast s) <;> simp [extractMetric, hp]
  · intro c0 c1 anc t s more crest
    cases hp : parseFloat (pyDropLast s) <;> simp [rowResult, extractMetric, hp]
  · with_unfolding_all rfl
  · norm_num

end BanksETL
